import Mathlib

/-!
# Deploy-confirm-invoke pipeline of `main.go`

A shallow embedding of `main` (the only function of the repository).  The
program is a straight-line script over external collaborators (process
environment, file system, the `solc` subprocess, the JSON-RPC node reached
through go-ethereum).  Every external call is an *oracle* of `Env`; every
effectful call is appended, together with the answer it got, to a log of
`Event`s.  Oracles of effectful calls receive the log of everything that
happened before, so that the outside world may answer differently to each
call.

The log is kept newest-first: `e :: h` is the log `h` after one more
interaction `e`.
-/

deriving instance DecidableEq for Except

namespace Deployer

/-! ## Bytes, hex decoding (`encoding/hex`) -/

abbrev Byte := Fin 256

abbrev Bytes := List Byte

/-- Go `encoding/hex.reverseHexTable`: the value of a hex digit, `0xff` for
every other byte. -/
def reverseHexTable (c : Byte) : Nat :=
  if 48 ≤ c.val ∧ c.val ≤ 57 then c.val - 48
  else if 97 ≤ c.val ∧ c.val ≤ 102 then c.val - 97 + 10
  else if 65 ≤ c.val ∧ c.val ≤ 70 then c.val - 65 + 10
  else 255

/-- Errors of `encoding/hex`: `InvalidByteError` and `ErrLength`. -/
inductive HexError where
  | invalidByte (b : Byte)
  | errLength
  deriving DecidableEq, Repr

/-- The loop of Go `hex.Decode`: two input bytes per output byte; the first
invalid byte stops the decoding; a lone last byte is `ErrLength` (after the
check that it is a hex digit). -/
def hexDecode : Bytes → Except HexError Bytes
  | [] => .ok []
  | [p] => if reverseHexTable p > 15 then .error (.invalidByte p) else .error .errLength
  | p :: q :: rest =>
    if reverseHexTable p > 15 then .error (.invalidByte p)
    else if reverseHexTable q > 15 then .error (.invalidByte q)
    else
      match hexDecode rest with
      | .error e => .error e
      | .ok out => .ok (Fin.ofNat (reverseHexTable p * 16 + reverseHexTable q) :: out)

/-- Go `hex.DecodeString`. -/
def hexDecodeString (s : Bytes) : Except HexError Bytes := hexDecode s

/-! ## `math/big`: `SetString(s, 10)` and `String()` -/

/-- Digits of a base-10 literal, most significant first; `none` when a
character is not a decimal digit. -/
def scanDigits : List Char → Nat → Option Nat
  | [], acc => some acc
  | c :: cs, acc =>
    if 48 ≤ c.toNat ∧ c.toNat ≤ 57 then scanDigits cs (acc * 10 + (c.toNat - 48)) else none

/-- Go `(*big.Int).SetString(s, 10)`: an optional sign, then at least one
decimal digit, and nothing else (no underscores for an explicit base). -/
def setString10 (s : String) : Option Int :=
  match s.data with
  | [] => none
  | '-' :: ds => if ds = [] then none else (scanDigits ds 0).map (fun n => - (n : Int))
  | '+' :: ds => if ds = [] then none else (scanDigits ds 0).map (fun n => (n : Int))
  | ds => (scanDigits ds 0).map (fun n => (n : Int))

/-- Go `(*big.Int).String()`: the decimal representation. -/
def bigIntString (v : Int) : String := toString v

/-! ## `path/filepath` and `strings` helpers -/

/-- The loop of Go `filepath.Ext`, run on the reversed name: `acc` is the
part of the name already passed (in order). -/
def extAux : List Char → List Char → List Char
  | [], _ => []
  | c :: rev, acc =>
    if c = '/' then []
    else if c = '.' then c :: acc
    else extAux rev (c :: acc)

/-- Go `filepath.Ext`: the suffix beginning at the final dot of the final
path element, empty when there is none.  Names are Unicode strings here
and byte strings in Go; the dot and the separator being ASCII, the loop
finds the same position on the characters as on the UTF-8 bytes. -/
def filepathExt (path : String) : String := String.mk (extAux path.data.reverse [])

/-- Go `strings.TrimSuffix`. -/
def trimSuffix (s suffix : String) : String :=
  if suffix.data.isSuffixOf s.data then String.mk (s.data.take (s.data.length - suffix.data.length))
  else s

/-- Go `filepath.Join` of a clean directory name with one path element (a
directory entry name, or such a name with its extension replaced): the two
joined by one separator. -/
def filepathJoin (dir elem : String) : String := dir ++ "/" ++ elem

/-! ## Values exchanged with the collaborators -/

/-- A 20-byte account or contract address (`common.Address`). -/
structure Address where
  val : Nat
  deriving DecidableEq, Repr

/-- A parsed private key (`*ecdsa.PrivateKey`). -/
structure PrivateKey where
  val : Nat
  deriving DecidableEq, Repr

/-- A parsed interface descriptor (`abi.ABI`). -/
structure ABI where
  val : Nat
  deriving DecidableEq, Repr

/-- A submitted transaction (`*types.Transaction`), identified by its hash. -/
structure Transaction where
  hash : Nat
  deriving DecidableEq, Repr

/-- The fields of `types.Receipt` the program reads. -/
structure Receipt where
  Status : Nat
  deriving DecidableEq, Repr

/-- Go `types.ReceiptStatusSuccessful`. -/
def ReceiptStatusSuccessful : Nat := 1

/-- The fields of `bind.TransactOpts` the program or the claims touch.
`GasPrice` is a `*big.Int` (`none` is the nil pointer), `GasLimit` a
`uint64`; `Signer` stands for the signing closure bound to key and chain. -/
structure TransactOpts where
  From : Address
  Signer : Nat
  GasPrice : Option Int
  GasLimit : Nat
  deriving DecidableEq, Repr

/-- A value decoded from call output into an `interface{}` slot. -/
inductive GoValue where
  | bigInt (v : Int)
  | uint8 (v : Nat)
  | uint16 (v : Nat)
  | uint32 (v : Nat)
  | uint64 (v : Nat)
  | bool (b : Bool)
  | str (s : String)
  | address (a : Address)
  | bytes (b : Bytes)
  deriving DecidableEq, Repr

/-- What `bind.WaitMined` can do: return a receipt, return an error, or
never return (no deadline is set on the background context). -/
inductive WaitResult where
  | mined (receipt : Receipt)
  | failed (err : String)
  | blocked
  deriving DecidableEq, Repr

/-- One interaction with the outside world: the call and its answer. -/
inductive Event where
  | godotenvLoad (r : Except String Unit)
  | dial (rawurl : String) (r : Except String Unit)
  | readDir (name : String) (r : Except String (List String))
  | command (name : String) (args : List String) (r : Except String Unit)
  | abs (path : String) (r : Except String String)
  | readFile (name : String) (r : Except String Bytes)
  | suggestGasPrice (r : Except String Int)
  | estimateGas (sender : Address) (data : Bytes) (r : Except String Nat)
  | deployContract (opts : TransactOpts) (abi : ABI) (bytecode : Bytes)
      (r : Except String (Address × Transaction))
  | waitMined (tx : Transaction) (r : WaitResult)
  | transact (contract : Address) (abi : ABI) (opts : TransactOpts) (method : String)
      (value : Int) (r : Except String Transaction)
  | call (contract : Address) (abi : ABI) (method : String) (r : Except String (List GoValue))
  | create (name : String) (r : Except String Unit)
  | write (data : Bytes) (r : Except String Unit)
  deriving DecidableEq, Repr

/-- The log of interactions, newest first. -/
abbrev Log := List Event

/-- The outside world.  The first group are pure library functions and the
process environment as left by `godotenv.Load`; the second group are the
effectful calls, answering as a function of the log so far. -/
structure Env where
  lookupEnv : String → Option String
  trimSpace : String → String
  hexToECDSA : String → Except String PrivateKey
  pubkeyToAddress : PrivateKey → Address
  abiJSON : Bytes → Except String ABI
  newKeyedTransactorWithChainID : PrivateKey → Int → Except String TransactOpts
  addressHex : Address → String
  marshalIndent : List (String × String) → Except String Bytes
  godotenvLoad : Except String Unit
  dial : String → Except String Unit
  readDir : String → Except String (List String)
  command : Log → String → List String → Except String Unit
  abs : Log → String → Except String String
  readFile : Log → String → Except String Bytes
  suggestGasPrice : Log → Except String Int
  estimateGas : Log → Address → Bytes → Except String Nat
  deployContract : Log → TransactOpts → ABI → Bytes → Except String (Address × Transaction)
  waitMined : Log → Transaction → WaitResult
  transact : Log → Address → ABI → TransactOpts → String → Int → Except String Transaction
  call : Log → Address → ABI → String → Except String (List GoValue)
  create : Log → String → Except String Unit
  write : Log → Bytes → Except String Unit

/-- How the process ends: `main` runs to its end; `log.Fatal` (exit status
1); an early `return` from `main` after a file error (exit status 0); a
run-time panic; or it never ends, blocked in a confirmation wait. -/
inductive Exit where
  | completed
  | fatal
  | returned
  | panicked
  | blocked
  deriving DecidableEq, Repr

/-- The state threaded through the run: the log, and the content of
`output.json` as left by this run (`none` while the run has not created it). -/
structure St where
  log : Log
  output : Option Bytes
  deriving DecidableEq, Repr

/-- Append one interaction to the log. -/
def St.record (s : St) (e : Event) : St := { s with log := e :: s.log }

/-- Either the run goes on from a state, or the process has ended. -/
inductive Step where
  | next (s : St)
  | stop (x : Exit) (s : St)
  deriving DecidableEq, Repr

/-! ## The program -/

/-- Errors of the `getUint256` closure. -/
inductive ReadError where
  | callFailed (err : String)
  | emptyResult
  | unexpectedType (v : GoValue)
  deriving DecidableEq, Repr

/-- The body of the `getUint256` closure after `instance.Call` returned
(lines 220-233): the error of the call, the empty-result error, the type
assertion `rawResult[0].(*big.Int)`, else the asserted value. -/
def getUint256Result (r : Except String (List GoValue)) : Except ReadError Int :=
  match r with
  | .error err => .error (.callFailed err)
  | .ok rawResult =>
    match rawResult with
    | [] => .error .emptyResult
    | .bigInt result :: _ => .ok result
    | v :: _ => .error (.unexpectedType v)

/-- The `getUint256` closure (lines 214-234): one `Call` of method
`getUint256` on the bound contract, then `getUint256Result`. -/
def getUint256 (env : Env) (contractABI : ABI) (contractAddress : Address) (s : St) :
    Except ReadError Int × St :=
  let r := env.call s.log contractAddress contractABI "getUint256"
  (getUint256Result r, s.record (.call contractAddress contractABI "getUint256" r))

/-- The `setUint256` closure (lines 185-195): one `Transact` of method
`setUint256` with the given authority and value. -/
def setUint256 (env : Env) (contractABI : ABI) (contractAddress : Address) (auth : TransactOpts)
    (value : Int) (s : St) : Except String Transaction × St :=
  let r := env.transact s.log contractAddress contractABI auth "setUint256" value
  (r, s.record (.transact contractAddress contractABI auth "setUint256" value r))

/-- The command line of the external compiler (line 95). -/
def solcArgs (contractPath : String) : List String :=
  ["--bin", "--abi", "--optimize", "--output-dir", "compiled-contracts",
   "--evm-version", "constantinople", "--overwrite", contractPath]

/-- The record written to the output file (line 244). -/
def outputData (env : Env) (currentValue : Int) (auth : TransactOpts) (address : Address) :
    List (String × String) :=
  [("getUint256Value", bigIntString currentValue),
   ("deployerAddress", env.addressHex auth.From),
   ("contractAddress", env.addressHex address)]

/-- Lines 91-103: the compiler runs only for an entry with extension `.sol`. -/
def compileContract (env : Env) (fileName : String) (s : St) : Step :=
  if filepathExt fileName = ".sol" then
    let contractPath := filepathJoin "contracts" fileName
    let r := env.command s.log "solc" (solcArgs contractPath)
    let s := s.record (.command "solc" (solcArgs contractPath) r)
    match r with
    | .error _ => .stop .fatal s
    | .ok _ => .next s
  else .next s

/-- Lines 243-263: create (truncate) `output.json`, encode the record, write
it.  Each failure prints a message and returns from `main`. -/
def writeOutput (env : Env) (data : List (String × String)) (s : St) : Step :=
  let r := env.create s.log "output.json"
  let s := s.record (.create "output.json" r)
  match r with
  | .error _ => .stop .returned s
  | .ok _ =>
  let s := { s with output := some [] }
  match env.marshalIndent data with
  | .error _ => .stop .returned s
  | .ok jsonData =>
  let r := env.write s.log jsonData
  let s := s.record (.write jsonData r)
  match r with
  | .error _ => .stop .returned s
  | .ok _ => .next { s with output := some jsonData }

/-- The body of the loop over the directory entries (lines 90-264) for one
entry.  The texts printed to standard output are not part of the model, nor
is the unreachable second error check of lines 151-154.  The authority is
passed by pointer; `main` writes its gas fields once (lines 162-163) and the
go-ethereum calls only read it, so one value `auth` stands for it in the
deployment and in the `setUint256` submission. -/
def processArtifact (env : Env) (privateKeyParsed : PrivateKey)
    (chainIdParsed uint256ValueParsed : Int) (fileName : String) (s : St) : Step :=
  match compileContract env fileName s with
  | .stop x s => .stop x s
  | .next s =>
  let r := env.abs s.log "./compiled-contracts"
  let s := s.record (.abs "./compiled-contracts" r)
  match r with
  | .error _ => .stop .fatal s
  | .ok binDir =>
  let name := trimSuffix fileName (filepathExt fileName)
  let binFilename := name ++ ".bin"
  let abiFilename := name ++ ".abi"
  let binPath := filepathJoin binDir binFilename
  let abiPath := filepathJoin binDir abiFilename
  let r := env.readFile s.log binPath
  let s := s.record (.readFile binPath r)
  match r with
  | .error _ => .stop .fatal s
  | .ok bytecodeStr =>
  if bytecodeStr.length < 68 then .stop .panicked s else
  match hexDecodeString (bytecodeStr.take (bytecodeStr.length - 68)) with
  | .error _ => .stop .fatal s
  | .ok constructorBytes =>
  let r := env.readFile s.log abiPath
  let s := s.record (.readFile abiPath r)
  match r with
  | .error _ => .stop .fatal s
  | .ok abiBytes =>
  match env.abiJSON abiBytes with
  | .error _ => .stop .fatal s
  | .ok contractABI =>
  let r := env.suggestGasPrice s.log
  let s := s.record (.suggestGasPrice r)
  match r with
  | .error _ => .stop .fatal s
  | .ok gasPrice =>
  let r := env.estimateGas s.log (env.pubkeyToAddress privateKeyParsed) constructorBytes
  let s := s.record (.estimateGas (env.pubkeyToAddress privateKeyParsed) constructorBytes r)
  match r with
  | .error _ => .stop .fatal s
  | .ok estimateGas =>
  match env.newKeyedTransactorWithChainID privateKeyParsed chainIdParsed with
  | .error _ => .stop .fatal s
  | .ok auth0 =>
  let gasLimit := estimateGas
  let auth := { auth0 with GasPrice := some gasPrice, GasLimit := (gasLimit + 100000) % 2 ^ 64 }
  let r := env.deployContract s.log auth contractABI constructorBytes
  let s := s.record (.deployContract auth contractABI constructorBytes r)
  match r with
  | .error _ => .stop .fatal s
  | .ok (address, tx) =>
  let r := env.waitMined s.log tx
  let s := s.record (.waitMined tx r)
  match r with
  | .blocked => .stop .blocked s
  | .failed _ => .stop .fatal s
  | .mined receipt =>
  if receipt.Status ≠ ReceiptStatusSuccessful then .stop .fatal s else
  let (r, s) := setUint256 env contractABI address auth uint256ValueParsed s
  match r with
  | .error _ => .stop .fatal s
  | .ok tx =>
  let r := env.waitMined s.log tx
  let s := s.record (.waitMined tx r)
  match r with
  | .blocked => .stop .blocked s
  | .failed _ => .stop .fatal s
  | .mined receipt =>
  if receipt.Status ≠ ReceiptStatusSuccessful then .stop .fatal s else
  let (r, s) := getUint256 env contractABI address s
  match r with
  | .error _ => .stop .fatal s
  | .ok currentValue =>
  writeOutput env (outputData env currentValue auth address) s

/-- The loop `for _, file := range contractFiles` (line 89): entries in
listing order; the first entry whose body ends the process ends the loop. -/
def deployAll (env : Env) (privateKeyParsed : PrivateKey) (chainIdParsed uint256ValueParsed : Int) :
    List String → St → Exit × St
  | [], s => (.completed, s)
  | file :: files, s =>
    match processArtifact env privateKeyParsed chainIdParsed uint256ValueParsed file s with
    | .stop x s => (x, s)
    | .next s => deployAll env privateKeyParsed chainIdParsed uint256ValueParsed files s

/-- A missing environment variable is reported and the empty string is used
(lines 33-61). -/
def getenv (env : Env) (key : String) : String := (env.lookupEnv key).getD ""

/-- The function `main` (lines 26-266).  The variable `EXPLORER_URL` is only
used in printed texts and is left out, as are the messages printed for
missing variables. -/
def main (env : Env) : Exit × St :=
  let s : St := { log := [], output := none }
  let r := env.godotenvLoad
  let s := s.record (.godotenvLoad r)
  match r with
  | .error _ => (.fatal, s)
  | .ok _ =>
  let privateKey := getenv env "PRIVATE_KEY"
  let chainId := getenv env "CHAIN_ID"
  let rpcProvider := getenv env "RPC_PROVIDER"
  let r := env.dial rpcProvider
  let s := s.record (.dial rpcProvider r)
  match r with
  | .error _ => (.fatal, s)
  | .ok _ =>
  let uint256Value := getenv env "UINT256_VALUE"
  match env.hexToECDSA (env.trimSpace privateKey) with
  | .error _ => (.fatal, s)
  | .ok privateKeyParsed =>
  match setString10 chainId with
  | none => (.fatal, s)
  | some chainIdParsed =>
  match setString10 uint256Value with
  | none => (.fatal, s)
  | some uint256ValueParsed =>
  let r := env.readDir "./contracts"
  let s := s.record (.readDir "./contracts" r)
  match r with
  | .error _ => (.fatal, s)
  | .ok contractFiles =>
  deployAll env privateKeyParsed chainIdParsed uint256ValueParsed contractFiles s

/-! ## Vocabulary of the statements -/

/-- The stage an interaction belongs to went through: the call returned no
error; a confirmation wait returned a receipt with the success status; the
`getUint256` read decoded its value. -/
def Event.ok : Event → Bool
  | .godotenvLoad r => r.toBool
  | .dial _ r => r.toBool
  | .readDir _ r => r.toBool
  | .command _ _ r => r.toBool
  | .abs _ r => r.toBool
  | .readFile _ r => r.toBool
  | .suggestGasPrice r => r.toBool
  | .estimateGas _ _ r => r.toBool
  | .deployContract _ _ _ r => r.toBool
  | .waitMined _ (.mined receipt) => decide (receipt.Status = ReceiptStatusSuccessful)
  | .waitMined _ _ => false
  | .transact _ _ _ _ _ r => r.toBool
  | .call _ _ _ r => (getUint256Result r).toBool
  | .create _ r => r.toBool
  | .write _ r => r.toBool

/-- How the process ends when the stage of an interaction did not go
through. -/
def Event.verdict : Event → Exit
  | .waitMined _ .blocked => .blocked
  | .create _ _ => .returned
  | .write _ _ => .returned
  | _ => .fatal

/-- Every interaction of a log went through. -/
def AllOk (h : Log) : Prop := ∀ e ∈ h, e.ok = true

/-- Right after the bytecode file was read (the read that follows the
resolution of the compiled-contracts directory), the only interaction the
program makes is another file read. -/
def ReadsFollow : Log → Event → Prop
  | .readFile _ _ :: .abs _ _ :: _, .readFile _ _ => True
  | .readFile _ _ :: .abs _ _ :: _, _ => False
  | _, _ => True

/-- How the arguments of an interaction `e` derive from the log `h` of what
happened before it. -/
def Shape (env : Env) : Log → Event → Prop
  | h, .readFile _ _ =>
      (∃ q r h0, h = .abs q r :: h0) ∨
      (∃ p s h0 payload, h = .readFile p (.ok s) :: h0 ∧ 68 ≤ s.length ∧
        hexDecodeString (s.take (s.length - 68)) = .ok payload)
  | h, .estimateGas _ data _ =>
      ∃ gasPrice abiPath abiBytes binPath s q binDir h0,
        h = .suggestGasPrice (.ok gasPrice) :: .readFile abiPath (.ok abiBytes) ::
              .readFile binPath (.ok s) :: .abs q (.ok binDir) :: h0 ∧
        68 ≤ s.length ∧ hexDecodeString (s.take (s.length - 68)) = .ok data
  | h, .deployContract opts _ data _ =>
      ∃ sender estimate gasPrice h0,
        h = .estimateGas sender data (.ok estimate) :: .suggestGasPrice (.ok gasPrice) :: h0 ∧
        env.suggestGasPrice h0 = .ok gasPrice ∧
        env.estimateGas (.suggestGasPrice (.ok gasPrice) :: h0) sender data = .ok estimate ∧
        opts.GasPrice = some gasPrice ∧ opts.GasLimit = (estimate + 100000) % 2 ^ 64
  | h, .transact contract abi opts _ _ _ =>
      ∃ tx receipt data h0,
        h = .waitMined tx (.mined receipt) ::
              .deployContract opts abi data (.ok (contract, tx)) :: h0
  | _, _ => True

/-- What the program guarantees about an interaction `e`, given the log
`h` of what happened before it. -/
def Expected (env : Env) (h : Log) (e : Event) : Prop := ReadsFollow h e ∧ Shape env h e

/-- Every interaction of the log `t` satisfies `L` with respect to the log
before it. -/
def Hist (L : Log → Event → Prop) (t : Log) : Prop :=
  ∀ later e earlier, t = later ++ e :: earlier → L earlier e

/-- How the exit status relates to the newest interaction of the final log. -/
def Halted (x : Exit) : Log → Prop
  | [] => True
  | e :: h =>
    (e.ok = false → x = e.verdict) ∧
    (∀ p s q r h0, e = .readFile p (.ok s) → h = .abs q r :: h0 →
      (s.length < 68 → x = .panicked) ∧
      (68 ≤ s.length → (hexDecodeString (s.take (s.length - 68))).toBool = false → x = .fatal) ∧
      (s.length < 68 ∨ (hexDecodeString (s.take (s.length - 68))).toBool = false))

/-- The command lines of the compiler invocations of a log, oldest first. -/
def compilations : Log → List (List String)
  | [] => []
  | .command _ args _ :: h => compilations h ++ [args]
  | _ :: h => compilations h

/-- The directory the compiled contracts are looked up in, when the newest
interaction of the log is its successful resolution. -/
def resolvedDir : Log → Option String
  | .abs _ (.ok binDir) :: _ => some binDir
  | _ => none

/-- The bytecode file reads of a log, oldest first: the file reads made
right after the resolution of the compiled-contracts directory, each as
the pair of the resolved directory and the path read. -/
def bytecodeReads : Log → List (String × String)
  | [] => []
  | .readFile path _ :: h =>
    bytecodeReads h ++ (match resolvedDir h with
      | some binDir => [(binDir, path)]
      | none => [])
  | _ :: h => bytecodeReads h

/-- The payloads of the deployment submissions of a log, oldest first. -/
def deployments : Log → List Bytes
  | [] => []
  | .deployContract _ _ data _ :: h => deployments h ++ [data]
  | _ :: h => deployments h

/-- The compiler command lines the program issues for a listing: one for
each entry whose extension is `.sol`, in listing order. -/
def expectedCompilations (files : List String) : List (List String) :=
  (files.filter fun f => filepathExt f = ".sol").map fun f =>
    solcArgs (filepathJoin "contracts" f)

/-- The bytecode file of entry `f`: `<binDir>/<name without extension>.bin`. -/
def IsBytecodeRead (f : String) (read : String × String) : Prop :=
  read.2 = filepathJoin read.1 (trimSuffix f (filepathExt f) ++ ".bin")

/-! ## The invariant of the run -/

/-- The invariant of a state from which the run goes on. -/
def Good (env : Env) (s : St) : Prop :=
  AllOk s.log ∧ Hist (Expected env) s.log ∧ ∀ e, ReadsFollow s.log e

/-- The invariant of the result of a loop body. -/
def StepGood (env : Env) : Step → Prop
  | .next s => Good env s
  | .stop x s => AllOk s.log.tail ∧ Hist (Expected env) s.log ∧ Halted x s.log ∧ x ≠ .completed

/-- The invariant of the result of the whole run. -/
def FinalGood (env : Env) (r : Exit × St) : Prop :=
  AllOk r.2.log.tail ∧ Hist (Expected env) r.2.log ∧
    ((r.1 = .completed ∧ Good env r.2) ∨ (r.1 ≠ .completed ∧ Halted r.1 r.2.log))

/-! ## A chain model and concrete worlds -/

/-- The transaction was confirmed with the success status within `newer`. -/
def minedOk (newer : Log) (tx : Transaction) : Bool :=
  newer.any fun e =>
    match e with
    | .waitMined tx2 (.mined receipt) =>
        decide (tx2 = tx) && decide (receipt.Status = ReceiptStatusSuccessful)
    | _ => false

/-- The storage slot of a trivial get/set contract at `contract`, read off
the log `h` (`newer` holds the interactions after `h`): the argument, as a
`uint256`, of the newest confirmed `setUint256` transaction; zero when there
is none. -/
def storedValueAux (contract : Address) : Log → Log → Int
  | _, [] => 0
  | newer, e :: h =>
    match e with
    | .transact a _ _ method value (.ok tx) =>
        if method = "setUint256" ∧ a = contract ∧ minedOk newer tx = true then value % 2 ^ 256
        else storedValueAux contract (e :: newer) h
    | _ => storedValueAux contract (e :: newer) h

/-- The value stored at `contract` after the log `h`. -/
def storedValue (contract : Address) (h : Log) : Int := storedValueAux contract [] h

/-- The chain behaves as a trivial get/set contract: `getUint256` returns
the value stored by the newest confirmed `setUint256`. -/
def TrivialGetSet (env : Env) : Prop :=
  ∀ h contract abi, env.call h contract abi "getUint256" = .ok [.bigInt (storedValue contract h)]

/-- The bytes of an ASCII text. -/
def asciiBytes (s : String) : Bytes := s.data.map fun c => Fin.ofNat c.toNat

/-- The parameters of a concrete world. -/
structure Scenario where
  files : List String
  chainId : String
  value : String
  bytecode : Bytes
  deployRejected : Bool
  deployStatus : Nat
  setStatus : Nat
  readOverride : Option (Except String (List GoValue))

/-- A bytecode file text of 70 characters: `60`, then 68 characters `0`. -/
def sampleBytecode : Bytes := [54, 48] ++ List.replicate 68 48

/-- A concrete world: a chain with a trivial get/set contract (unless the
scenario overrides the answer of the read), where the gas price moves with
every interaction, each deployment gets its own address, and the outcome of
the deployment and of the confirmations is chosen by the scenario. -/
def scenarioEnv (sc : Scenario) : Env where
  lookupEnv := fun key =>
    if key = "PRIVATE_KEY" then some "01"
    else if key = "CHAIN_ID" then some sc.chainId
    else if key = "RPC_PROVIDER" then some "http://localhost:8545"
    else if key = "UINT256_VALUE" then some sc.value
    else none
  trimSpace := fun s => s
  hexToECDSA := fun _ => .ok ⟨1⟩
  pubkeyToAddress := fun key => ⟨key.val + 1000⟩
  abiJSON := fun _ => .ok ⟨0⟩
  newKeyedTransactorWithChainID := fun key _ =>
    .ok { From := ⟨key.val + 1000⟩, Signer := 0, GasPrice := none, GasLimit := 0 }
  addressHex := fun a => "0x" ++ toString a.val
  marshalIndent := fun data =>
    .ok (data.map fun kv => asciiBytes (kv.1 ++ "=" ++ kv.2 ++ ";")).flatten
  godotenvLoad := .ok ()
  dial := fun _ => .ok ()
  readDir := fun _ => .ok sc.files
  command := fun _ _ _ => .ok ()
  abs := fun _ _ => .ok "/work/compiled-contracts"
  readFile := fun h _ =>
    match h with
    | .abs _ _ :: _ => .ok sc.bytecode
    | _ => .ok [91, 93]
  suggestGasPrice := fun h => .ok (1000 + h.length)
  estimateGas := fun _ _ data => .ok (21000 + data.length)
  deployContract := fun h _ _ _ =>
    if sc.deployRejected then .error "nonce too low" else .ok (⟨2000 + h.length⟩, ⟨h.length⟩)
  waitMined := fun h _ =>
    match h with
    | .deployContract _ _ _ _ :: _ => .mined ⟨sc.deployStatus⟩
    | _ => .mined ⟨sc.setStatus⟩
  transact := fun h _ _ _ _ _ => .ok ⟨h.length⟩
  call := fun h contract _ method =>
    match sc.readOverride with
    | some r => r
    | none =>
      if method = "getUint256" then .ok [.bigInt (storedValue contract h)] else .error "no method"
  create := fun _ _ => .ok ()
  write := fun _ _ => .ok ()

/-- One artifact, every stage succeeds, value 42. -/
def happyScenario : Scenario :=
  { files := ["Storage.sol"], chainId := "1", value := "42", bytecode := sampleBytecode,
    deployRejected := false, deployStatus := 1, setStatus := 1, readOverride := none }

/-- The receipt of the deployment reports a failure. -/
def failedDeploymentScenario : Scenario := { happyScenario with deployStatus := 0 }

/-- The receipt of the setUint256 transaction reports a failure. -/
def failedWriteScenario : Scenario := { happyScenario with setStatus := 0 }

/-- The node rejects the deployment submission. -/
def rejectedScenario : Scenario := { happyScenario with deployRejected := true }

/-- The read decodes to an empty list. -/
def emptyReadScenario : Scenario := { happyScenario with readOverride := some (.ok []) }

/-- The bytecode file holds two characters only. -/
def shortBytecodeScenario : Scenario := { happyScenario with bytecode := [54, 48] }

/-- The bytecode file holds exactly 68 characters `0`: the payload is empty. -/
def boundaryBytecodeScenario : Scenario :=
  { happyScenario with bytecode := List.replicate 68 48 }

/-- Two entries, the second of which is not a Solidity source. -/
def twoEntriesScenario : Scenario := { happyScenario with files := ["Storage.sol", "notes.txt"] }

/-- The chain identifier is not a number. -/
def badChainScenario : Scenario := { happyScenario with chainId := "mainnet" }

/-! # Theorems -/

/-! ## Lemmas on logs -/

theorem hist_nil (L : Log → Event → Prop) : Hist L [] := by
  intro later e earlier h
  cases later <;> simp at h

theorem hist_cons (L : Log → Event → Prop) (e : Event) (t : Log) :
    Hist L (e :: t) ↔ L t e ∧ Hist L t := by
  constructor
  · intro h
    exact ⟨h [] e t rfl, fun later e2 earlier ht => h (e :: later) e2 earlier (by simp [ht])⟩
  · rintro ⟨h1, h2⟩ later e2 earlier ht
    cases later with
    | nil =>
      simp only [List.nil_append, List.cons.injEq] at ht
      obtain ⟨rfl, rfl⟩ := ht
      exact h1
    | cons a later =>
      simp only [List.cons_append, List.cons.injEq] at ht
      exact h2 later e2 earlier ht.2

theorem allOk_nil : AllOk [] := by
  intro e he
  cases he

theorem allOk_cons (e : Event) (t : Log) : AllOk (e :: t) ↔ e.ok = true ∧ AllOk t := by
  simp [AllOk]

/-- In a log whose interactions before the newest all went through, an
interaction that did not go through is the newest. -/
theorem failed_is_newest (t later earlier : Log) (e : Event) (hall : AllOk t.tail)
    (ht : t = later ++ e :: earlier) (he : e.ok = false) : later = [] := by
  cases later with
  | nil => rfl
  | cons a later =>
    subst ht
    have := hall e (by simp)
    simp [he] at this

theorem compileContract_good (env : Env) (f : String) (s : St) (h : Good env s) :
    StepGood env (compileContract env f s) := by
  obtain ⟨h1, h2, h3⟩ := h
  unfold compileContract
  split
  · simp only []
    split
    · simp [StepGood, St.record, hist_cons, Expected, Shape, Halted, Event.ok, Event.verdict, h1,
        h2, h3, Except.toBool, *]
    · refine ⟨?_, ?_, ?_⟩
      · simp [St.record, allOk_cons, Event.ok, h1, Except.toBool, *]
      · simp [St.record, hist_cons, Expected, Shape, h2, h3]
      · intro e
        simp [St.record, ReadsFollow]
  · exact ⟨h1, h2, h3⟩

set_option maxHeartbeats 4000000 in
theorem processArtifact_good (env : Env) (k : PrivateKey) (c v : Int) (f : String) (s : St)
    (h : Good env s) : StepGood env (processArtifact env k c v f s) := by
  have hc := compileContract_good env f s h
  unfold processArtifact
  split
  · next x s1 heq =>
    rw [heq] at hc
    exact hc
  · next s1 heq =>
    rw [heq] at hc
    obtain ⟨h1, h2, h3⟩ := hc
    simp only [setUint256, getUint256, writeOutput]
    repeat' split
    all_goals
      simp_all [StepGood, Good, St.record, hist_cons, allOk_cons, Expected, ReadsFollow, Shape,
        Halted, Event.ok, Event.verdict, Except.toBool, ReceiptStatusSuccessful, and_assoc]
    all_goals
      intros
      subst_vars
      first
        | omega
        | (refine ⟨by omega, Or.inr ?_⟩
           simp [*])

theorem allOk_tail (t : Log) (h : AllOk t) : AllOk t.tail := by
  intro e he
  exact h e (List.mem_of_mem_tail he)

theorem deployAll_good (env : Env) (k : PrivateKey) (c v : Int) (files : List String) :
    ∀ s : St, Good env s → FinalGood env (deployAll env k c v files s) := by
  induction files with
  | nil =>
    intro s h
    exact ⟨allOk_tail _ h.1, h.2.1, Or.inl ⟨rfl, h⟩⟩
  | cons f files ih =>
    intro s h
    have hp := processArtifact_good env k c v f s h
    unfold deployAll
    split
    · next x s1 heq =>
      rw [heq] at hp
      exact ⟨hp.1, hp.2.1, Or.inr ⟨hp.2.2.2, hp.2.2.1⟩⟩
    · next s1 heq =>
      rw [heq] at hp
      exact ih s1 hp

theorem main_good (env : Env) : FinalGood env (main env) := by
  unfold main
  simp only []
  repeat' split
  all_goals first
    | (apply deployAll_good
       simp_all [Good, St.record, hist_cons, hist_nil, allOk_cons, allOk_nil, Expected, ReadsFollow, Shape, Event.ok,
         Except.toBool])
    | simp_all [FinalGood, St.record, hist_cons, hist_nil, allOk_cons, allOk_nil, Expected, ReadsFollow, Shape,
        Halted, Event.ok, Event.verdict, Except.toBool, AllOk]

theorem compileContract_next (env : Env) (f : String) (s s1 : St)
    (h : compileContract env f s = .next s1) :
    s1.log = (if filepathExt f = ".sol" then
        [.command "solc" (solcArgs (filepathJoin "contracts" f)) (.ok ())] else []) ++ s.log ∧
      s1.output = s.output := by
  unfold compileContract at h
  split at h
  · simp only [] at h
    split at h
    · simp at h
    · next hr =>
      simp only [Step.next.injEq] at h
      subst h
      simp [St.record, hr, *]
  · simp only [Step.next.injEq] at h
    subst h
    simp [*]

set_option maxHeartbeats 4000000 in
/-- The log and the output file after a loop body that ran to its end. -/
theorem processArtifact_next (env : Env) (k : PrivateKey) (c v : Int) (f : String) (s s2 : St)
    (h : processArtifact env k c v f s = .next s2) :
    ∃ binDir bytecodeStr constructorBytes abiBytes contractABI gasPrice estimate auth0 auth address
        tx receipt tx2 receipt2 r currentValue jsonData,
      s2.log =
        [.write jsonData (.ok ()),
         .create "output.json" (.ok ()),
         .call address contractABI "getUint256" r,
         .waitMined tx2 (.mined receipt2),
         .transact address contractABI auth "setUint256" v (.ok tx2),
         .waitMined tx (.mined receipt),
         .deployContract auth contractABI constructorBytes (.ok (address, tx)),
         .estimateGas (env.pubkeyToAddress k) constructorBytes (.ok estimate),
         .suggestGasPrice (.ok gasPrice),
         .readFile (filepathJoin binDir (trimSuffix f (filepathExt f) ++ ".abi")) (.ok abiBytes),
         .readFile (filepathJoin binDir (trimSuffix f (filepathExt f) ++ ".bin")) (.ok bytecodeStr),
         .abs "./compiled-contracts" (.ok binDir)] ++
        (if filepathExt f = ".sol" then
          [.command "solc" (solcArgs (filepathJoin "contracts" f)) (.ok ())] else []) ++ s.log ∧
      s2.output = some jsonData ∧
      env.marshalIndent (outputData env currentValue auth address) = .ok jsonData ∧
      getUint256Result r = .ok currentValue ∧
      env.call (.waitMined tx2 (.mined receipt2) ::
          .transact address contractABI auth "setUint256" v (.ok tx2) ::
          .waitMined tx (.mined receipt) ::
          .deployContract auth contractABI constructorBytes (.ok (address, tx)) ::
          .estimateGas (env.pubkeyToAddress k) constructorBytes (.ok estimate) ::
          .suggestGasPrice (.ok gasPrice) ::
          .readFile (filepathJoin binDir (trimSuffix f (filepathExt f) ++ ".abi")) (.ok abiBytes) ::
          .readFile (filepathJoin binDir (trimSuffix f (filepathExt f) ++ ".bin")) (.ok bytecodeStr) ::
          .abs "./compiled-contracts" (.ok binDir) ::
          ((if filepathExt f = ".sol" then
            [.command "solc" (solcArgs (filepathJoin "contracts" f)) (.ok ())] else []) ++ s.log))
        address contractABI "getUint256" = r ∧
      receipt.Status = ReceiptStatusSuccessful ∧ receipt2.Status = ReceiptStatusSuccessful ∧
      env.newKeyedTransactorWithChainID k c = .ok auth0 ∧
      auth = { auth0 with GasPrice := some gasPrice, GasLimit := (estimate + 100000) % 2 ^ 64 } := by
  unfold processArtifact at h
  simp only [setUint256, getUint256, writeOutput] at h
  split at h
  · simp at h
  · next s1 hc =>
    obtain ⟨hc1, hc2⟩ := compileContract_next env f s s1 hc
    repeat' split at h
    all_goals
      simp_all [St.record, and_assoc]
    subst h
    exact ⟨_, _, _, _, _, _, _, _, _, _, _, _, _, _, _, _, _, rfl, rfl, ‹_›, ‹_›, rfl, ‹_›, ‹_›,
      rfl, rfl⟩

/-! ## Consequences of the invariant -/

/-- An interaction whose stage did not go through is the newest of the final
log, and the process ends with the verdict of that interaction. -/
theorem failed_event_halts (env : Env) (later earlier : Log) (e : Event)
    (hlog : (main env).2.log = later ++ e :: earlier) (he : e.ok = false) :
    later = [] ∧ (main env).1 = e.verdict := by
  obtain ⟨h1, _, h3⟩ := main_good env
  have hl := failed_is_newest _ _ _ _ h1 hlog he
  subst hl
  refine ⟨rfl, ?_⟩
  simp only [List.nil_append] at hlog
  rcases h3 with ⟨_, hall, _⟩ | ⟨_, hh⟩
  · have := hall e (by rw [hlog]; simp)
    simp [he] at this
  · rw [hlog] at hh
    exact hh.1 he

/-- Every interaction of the final log is as the program makes it. -/
theorem event_expected (env : Env) (later earlier : Log) (e : Event)
    (hlog : (main env).2.log = later ++ e :: earlier) : Expected env earlier e :=
  (main_good env).2.1 later e earlier hlog

/-- C1: a confirmation wait (of the deployment or of the setUint256
transaction) that returns a receipt whose status is not the success status is
the last interaction of the run, and the process ends by `log.Fatal`:
nothing later happens for this artifact (no setUint256 submission, no
getUint256 read, no creation or write of the output file) nor for any later
artifact. -/
theorem failed_receipt_halts (env : Env) (later earlier : Log) (tx : Transaction)
    (receipt : Receipt)
    (hlog : (main env).2.log = later ++ .waitMined tx (.mined receipt) :: earlier)
    (hstatus : receipt.Status ≠ ReceiptStatusSuccessful) :
    later = [] ∧ (main env).1 = .fatal := by
  have he : (Event.waitMined tx (.mined receipt)).ok = false := by simp [Event.ok, hstatus]
  exact failed_event_halts env later earlier _ hlog he

/-- C6: a deployment submission that returns an error is the last
interaction of the run, and the process ends by `log.Fatal`: no confirmation
wait, no setUint256 submission, no getUint256 read, no output file, no later
artifact. -/
theorem rejected_deployment_halts (env : Env) (later earlier : Log) (opts : TransactOpts)
    (abi : ABI) (data : Bytes) (err : String)
    (hlog : (main env).2.log = later ++ .deployContract opts abi data (.error err) :: earlier) :
    later = [] ∧ (main env).1 = .fatal :=
  failed_event_halts env later earlier _ hlog rfl

/-- C4: every deployment submission carries the gas price returned by the
gas price query made two interactions earlier, after the interface file of
this artifact was read, and the gas limit `(estimate + 100000) mod 2^64`,
where `estimate` is the answer of the gas estimation of the same payload made
right before the submission; the limit is `estimate + 100000` whenever
`estimate ≤ 2^64 - 100001`. -/
theorem deployment_gas_parameters (env : Env) (later earlier : Log) (opts : TransactOpts)
    (abi : ABI) (data : Bytes) (r : Except String (Address × Transaction))
    (hlog : (main env).2.log = later ++ .deployContract opts abi data r :: earlier) :
    ∃ sender estimate gasPrice abiPath abiBytes h1,
      earlier = .estimateGas sender data (.ok estimate) :: .suggestGasPrice (.ok gasPrice) ::
        .readFile abiPath (.ok abiBytes) :: h1 ∧
      env.suggestGasPrice (.readFile abiPath (.ok abiBytes) :: h1) = .ok gasPrice ∧
      env.estimateGas (.suggestGasPrice (.ok gasPrice) :: .readFile abiPath (.ok abiBytes) :: h1)
        sender data = .ok estimate ∧
      opts.GasPrice = some gasPrice ∧
      opts.GasLimit = (estimate + 100000) % 2 ^ 64 ∧
      (estimate ≤ 2 ^ 64 - 100001 → opts.GasLimit = estimate + 100000) := by
  obtain ⟨_, hs⟩ := event_expected env later earlier _ hlog
  simp only [Shape] at hs
  obtain ⟨sender, estimate, gasPrice, h0, rfl, hgp, hest, hp, hl⟩ := hs
  have hlog2 : (main env).2.log = (later ++ [.deployContract opts abi data r]) ++
      .estimateGas sender data (.ok estimate) :: .suggestGasPrice (.ok gasPrice) :: h0 := by
    rw [hlog]; simp
  obtain ⟨_, hs2⟩ := event_expected env _ _ _ hlog2
  simp only [Shape] at hs2
  obtain ⟨gp2, abiPath, abiBytes, binPath, s, q, binDir, h00, heq, _, _⟩ := hs2
  simp only [List.cons.injEq, Event.suggestGasPrice.injEq] at heq
  obtain ⟨_, rfl⟩ := heq
  refine ⟨sender, estimate, gasPrice, abiPath, abiBytes, _, rfl, hgp, hest, hp, hl, ?_⟩
  intro hle
  rw [hl]
  apply Nat.mod_eq_of_lt
  omega

/-- C3, as the code has it: every setUint256 submission is made with the
very authority of the deployment of the same contract, two interactions
earlier: same gas price (the one queried before the deployment) and same gas
limit `(deployment estimate + 100000) mod 2^64`. -/
theorem write_call_keeps_deployment_gas (env : Env) (later earlier : Log) (contract : Address)
    (abi : ABI) (opts : TransactOpts) (method : String) (value : Int)
    (r : Except String Transaction)
    (hlog : (main env).2.log = later ++ .transact contract abi opts method value r :: earlier) :
    ∃ tx receipt data sender estimate gasPrice h1,
      earlier = .waitMined tx (.mined receipt) ::
        .deployContract opts abi data (.ok (contract, tx)) ::
        .estimateGas sender data (.ok estimate) :: .suggestGasPrice (.ok gasPrice) :: h1 ∧
      opts.GasPrice = some gasPrice ∧
      opts.GasLimit = (estimate + 100000) % 2 ^ 64 := by
  obtain ⟨_, hs⟩ := event_expected env later earlier _ hlog
  simp only [Shape] at hs
  obtain ⟨tx, receipt, data, h0, rfl⟩ := hs
  have hlog2 : (main env).2.log =
      (later ++ [.transact contract abi opts method value r, .waitMined tx (.mined receipt)]) ++
      .deployContract opts abi data (.ok (contract, tx)) :: h0 := by
    rw [hlog]; simp
  obtain ⟨_, hs2⟩ := event_expected env _ _ _ hlog2
  simp only [Shape] at hs2
  obtain ⟨sender, estimate, gasPrice, h1, rfl, _, _, hp, hl⟩ := hs2
  exact ⟨tx, receipt, data, sender, estimate, gasPrice, h1, rfl, hp, hl⟩

/-- C7: the `getUint256` read returns an error exactly when the underlying
call failed, or decoded to an empty list, or decoded to a first value that is
not a `*big.Int`; otherwise it returns that first value; the closure makes
exactly one call and returns this result; and in every run a call on which
the read returns an error is the last interaction, the process ending by
`log.Fatal` (so no output file is created or written for that artifact). -/
theorem getUint256_contract (env : Env) :
    (∀ r : Except String (List GoValue),
      (∃ e, getUint256Result r = .error e) ↔
        ((∃ err, r = .error err) ∨ r = .ok [] ∨
          ∃ v rest, r = .ok (v :: rest) ∧ ∀ n, v ≠ .bigInt n)) ∧
    (∀ (r : Except String (List GoValue)) (n : Int),
      getUint256Result r = .ok n ↔ ∃ rest, r = .ok (.bigInt n :: rest)) ∧
    (∀ (abi : ABI) (contract : Address) (s : St),
      getUint256 env abi contract s =
        (getUint256Result (env.call s.log contract abi "getUint256"),
          s.record (.call contract abi "getUint256" (env.call s.log contract abi "getUint256")))) ∧
    (∀ (later earlier : Log) (contract : Address) (abi : ABI) (method : String)
        (r : Except String (List GoValue)) (e : ReadError),
      (main env).2.log = later ++ .call contract abi method r :: earlier →
      getUint256Result r = .error e →
      later = [] ∧ (main env).1 = .fatal) := by
  refine ⟨?_, ?_, ?_, ?_⟩
  · intro r
    rcases r with err | raw
    · simp [getUint256Result]
    · rcases raw with _ | ⟨v, rest⟩
      · simp [getUint256Result]
      · cases v <;> simp [getUint256Result]
  · intro r n
    rcases r with err | raw
    · simp [getUint256Result]
    · rcases raw with _ | ⟨v, rest⟩
      · simp [getUint256Result]
      · cases v <;> simp [getUint256Result]
  · intro abi contract s
    rfl
  · intro later earlier contract abi method r e hlog hr
    have he : (Event.call contract abi method r).ok = false := by
      simp [Event.ok, hr, Except.toBool]
    exact failed_event_halts env later earlier _ hlog he

/-- What follows a successful read of the bytecode file: when the log goes
on after it, the text has at least 68 characters and the text without its
last 68 characters is valid hex. -/
theorem after_bytecode_read (env : Env) (later h0 : Log) (p q : String) (s : Bytes)
    (r : Except String String)
    (hlog : (main env).2.log = later ++ .readFile p (.ok s) :: .abs q r :: h0)
    (hne : later ≠ []) :
    68 ≤ s.length ∧ ∃ payload, hexDecodeString (s.take (s.length - 68)) = .ok payload := by
  obtain ⟨later2, e2, rfl⟩ : ∃ l2 e2, later = l2 ++ [e2] := by
    rcases List.eq_nil_or_concat later with h | ⟨l2, e2, h⟩
    · exact absurd h hne
    · exact ⟨l2, e2, by simpa using h⟩
  have hlog2 : (main env).2.log = later2 ++ e2 :: .readFile p (.ok s) :: .abs q r :: h0 := by
    rw [hlog]; simp
  obtain ⟨hrf, hs⟩ := event_expected env _ _ _ hlog2
  cases e2 <;> simp only [ReadsFollow] at hrf
  simp only [Shape] at hs
  rcases hs with ⟨q2, r2, h2, heq⟩ | ⟨p2, s2, h2, payload, heq, hlen, hdec⟩
  · simp at heq
  · simp only [List.cons.injEq, Event.readFile.injEq, Except.ok.injEq] at heq
    obtain ⟨⟨_, rfl⟩, _⟩ := heq
    exact ⟨hlen, payload, hdec⟩

/-- After a successful read of a bytecode text of at least 68 characters
whose text without the last 68 characters is valid hex, the run neither
panics nor ends there: the next interaction is a file read. -/
theorem bytecode_read_goes_on (env : Env) (later h0 : Log) (p q : String) (s : Bytes)
    (r : Except String String) (payload : Bytes)
    (hlog : (main env).2.log = later ++ .readFile p (.ok s) :: .abs q r :: h0)
    (hlen : 68 ≤ s.length)
    (hdec : hexDecodeString (s.take (s.length - 68)) = .ok payload) :
    ∃ later2 abiPath r2, later = later2 ++ [.readFile abiPath r2] := by
  rcases List.eq_nil_or_concat later with h | ⟨l2, e2, h⟩
  · subst h
    simp only [List.nil_append] at hlog
    obtain ⟨_, _, h3⟩ := main_good env
    rcases h3 with ⟨_, _, _, hrf⟩ | ⟨_, hh⟩
    · have := hrf (.godotenvLoad (.ok ()))
      rw [hlog] at this
      simp [ReadsFollow] at this
    · rw [hlog] at hh
      rcases (hh.2 p s q r h0 rfl rfl).2.2 with hlt | hbad
      · omega
      · simp [hdec, Except.toBool] at hbad
  · have hl : later = l2 ++ [e2] := by simpa using h
    subst hl
    have hlog2 : (main env).2.log = l2 ++ e2 :: .readFile p (.ok s) :: .abs q r :: h0 := by
      rw [hlog]; simp
    obtain ⟨hrf, _⟩ := event_expected env _ _ _ hlog2
    cases e2 <;> simp only [ReadsFollow] at hrf
    exact ⟨l2, _, _, rfl⟩

/-- C10: (1) a bytecode text `s` (the answer of the file read that follows
the resolution of the compiled-contracts directory) of fewer than 68
characters ends the run in a panic right there, no payload being produced;
for `s` of at least 68 characters the slice drops exactly the last 68
characters; when the remaining text is not valid hex the run ends right
there by `log.Fatal`, before any gas query or submission; when it is valid
hex, decoding to `payload`, the run does not end there: the next
interaction is a file read, and the gas estimation made two interactions
after that read is the estimation of `payload`; (2) the payload of every gas
estimation is the hex decoding of the bytecode text read in this artifact
without its last 68 characters; (3) the payload of every deployment
submission is the payload of the gas estimation made right before it. -/
theorem constructor_payload (env : Env) :
    (∀ (later h0 : Log) (p q : String) (s : Bytes) (r : Except String String),
      (main env).2.log = later ++ .readFile p (.ok s) :: .abs q r :: h0 →
      (s.length < 68 → later = [] ∧ (main env).1 = .panicked) ∧
      (68 ≤ s.length →
        s.take (s.length - 68) ++ s.drop (s.length - 68) = s ∧
        (s.drop (s.length - 68)).length = 68 ∧
        (∀ e, hexDecodeString (s.take (s.length - 68)) = .error e →
          later = [] ∧ (main env).1 = .fatal) ∧
        (∀ payload, hexDecodeString (s.take (s.length - 68)) = .ok payload →
          ∃ later2 abiPath r2, later = later2 ++ [.readFile abiPath r2] ∧
            ∀ (later3 : Log) (sender : Address) (data : Bytes) (r3 : Except String Nat)
              (r4 : Except String Int),
              later2 = later3 ++ [.estimateGas sender data r3, .suggestGasPrice r4] →
              data = payload))) ∧
    (∀ (later earlier : Log) (sender : Address) (data : Bytes) (r : Except String Nat),
      (main env).2.log = later ++ .estimateGas sender data r :: earlier →
      ∃ gasPrice abiPath abiBytes binPath s q binDir h0,
        earlier = .suggestGasPrice (.ok gasPrice) :: .readFile abiPath (.ok abiBytes) ::
          .readFile binPath (.ok s) :: .abs q (.ok binDir) :: h0 ∧
        68 ≤ s.length ∧ hexDecodeString (s.take (s.length - 68)) = .ok data) ∧
    (∀ (later earlier : Log) (opts : TransactOpts) (abi : ABI) (data : Bytes)
        (r : Except String (Address × Transaction)),
      (main env).2.log = later ++ .deployContract opts abi data r :: earlier →
      ∃ sender estimate h1, earlier = .estimateGas sender data (.ok estimate) :: h1) := by
  have hend : ∀ (h0 : Log) (p q : String) (s : Bytes) (r : Except String String),
      (main env).2.log = .readFile p (.ok s) :: .abs q r :: h0 →
      (s.length < 68 → (main env).1 = .panicked) ∧
      (68 ≤ s.length → (hexDecodeString (s.take (s.length - 68))).toBool = false →
        (main env).1 = .fatal) := by
    intro h0 p q s r hlog
    obtain ⟨_, _, h3⟩ := main_good env
    rcases h3 with ⟨_, _, _, hrf⟩ | ⟨_, hh⟩
    · have := hrf (.godotenvLoad (.ok ()))
      rw [hlog] at this
      simp [ReadsFollow] at this
    · rw [hlog] at hh
      exact ⟨(hh.2 p s q r h0 rfl rfl).1, (hh.2 p s q r h0 rfl rfl).2.1⟩
  refine ⟨?_, ?_, ?_⟩
  · intro later h0 p q s r hlog
    refine ⟨?_, ?_⟩
    · intro hlt
      by_cases hne : later = []
      · subst hne
        exact ⟨rfl, (hend h0 p q s r hlog).1 hlt⟩
      · have := (after_bytecode_read env later h0 p q s r hlog hne).1
        omega
    · intro hge
      refine ⟨List.take_append_drop _ _, ?_, ?_, ?_⟩
      · simp only [List.length_drop]
        omega
      · intro e he
        by_cases hne : later = []
        · subst hne
          exact ⟨rfl, (hend h0 p q s r hlog).2 hge (by simp [he, Except.toBool])⟩
        · obtain ⟨_, payload, hp⟩ := after_bytecode_read env later h0 p q s r hlog hne
          rw [he] at hp
          cases hp
      · intro payload hdec
        obtain ⟨later2, abiPath, r2, rfl⟩ :=
          bytecode_read_goes_on env later h0 p q s r payload hlog hge hdec
        refine ⟨later2, abiPath, r2, rfl, ?_⟩
        intro later3 sender data r3 r4 hl3
        subst hl3
        have hlog3 : (main env).2.log = later3 ++ .estimateGas sender data r3 ::
            (.suggestGasPrice r4 :: .readFile abiPath r2 :: .readFile p (.ok s) ::
              .abs q r :: h0) := by
          rw [hlog]; simp
        obtain ⟨_, hs⟩ := event_expected env _ _ _ hlog3
        simp only [Shape] at hs
        obtain ⟨gp, abiPath2, abiBytes, binPath, s2, q2, binDir, h00, heq, _, hdata⟩ := hs
        simp only [List.cons.injEq, Event.readFile.injEq, Except.ok.injEq] at heq
        obtain ⟨_, _, ⟨_, rfl⟩, _⟩ := heq
        rw [hdec] at hdata
        exact (Except.ok.inj hdata).symm
  · intro later earlier sender data r hlog
    obtain ⟨_, hs⟩ := event_expected env later earlier _ hlog
    simpa only [Shape] using hs
  · intro later earlier opts abi data r hlog
    obtain ⟨_, hs⟩ := event_expected env later earlier _ hlog
    simp only [Shape] at hs
    obtain ⟨sender, estimate, gasPrice, h0, rfl, _⟩ := hs
    exact ⟨sender, estimate, _, rfl⟩

/-- C5, as the code has it: when the chain identifier is not a base-10
integer the process ends by `log.Fatal` without creating the output file,
and the whole log is the loading of the `.env` file followed, when that
loading succeeded, by the dial of the RPC endpoint: the dial is made before
the chain identifier is parsed, and there is no gas price query, gas
estimation, submission, confirmation wait or contract call. -/
theorem invalid_chain_id_halts (env : Env) (h : setString10 (getenv env "CHAIN_ID") = none) :
    (main env).1 = .fatal ∧ (main env).2.output = none ∧
    (∀ err, env.godotenvLoad = .error err →
      (main env).2.log = [.godotenvLoad (.error err)]) ∧
    (env.godotenvLoad = .ok () →
      (main env).2.log =
        [.dial (getenv env "RPC_PROVIDER") (env.dial (getenv env "RPC_PROVIDER")),
         .godotenvLoad (.ok ())]) := by
  unfold main
  simp only [h]
  repeat' split
  all_goals simp_all [St.record]

/-- C5 as stated fails: with the chain identifier `mainnet` the RPC endpoint
is dialled all the same. -/
theorem invalid_chain_id_still_dials :
    setString10 (getenv (scenarioEnv badChainScenario) "CHAIN_ID") = none ∧
    Event.dial "http://localhost:8545" (.ok ()) ∈ (main (scenarioEnv badChainScenario)).2.log := by
  decide

theorem invalid_chain_id_halts_witness :
    setString10 (getenv (scenarioEnv badChainScenario) "CHAIN_ID") = none ∧
    (main (scenarioEnv badChainScenario)).1 = .fatal ∧
    (main (scenarioEnv badChainScenario)).2.log =
      [.dial "http://localhost:8545" (.ok ()), .godotenvLoad (.ok ())] :=
  ⟨by decide, (invalid_chain_id_halts (scenarioEnv badChainScenario) (by decide)).1,
    (invalid_chain_id_halts (scenarioEnv badChainScenario) (by decide)).2.2.2 rfl⟩

/-! ## The loop over the listing -/

theorem compileContract_stop (env : Env) (f : String) (s s1 : St) (x : Exit)
    (h : compileContract env f s = .stop x s1) :
    x = .fatal ∧ filepathExt f = ".sol" ∧ ∃ r,
      s1.log = .command "solc" (solcArgs (filepathJoin "contracts" f)) r :: s.log := by
  unfold compileContract at h
  split at h
  · simp only [] at h
    split at h
    · simp only [Step.stop.injEq] at h
      obtain ⟨rfl, rfl⟩ := h
      exact ⟨rfl, ‹_›, _, rfl⟩
    · simp at h
  · simp at h

set_option maxHeartbeats 4000000 in
/-- The compiler invocations and bytecode reads of a loop body that ended
the process. -/
theorem processArtifact_stop (env : Env) (k : PrivateKey) (c v : Int) (f : String) (s s2 : St)
    (x : Exit) (h : processArtifact env k c v f s = .stop x s2) :
    x ≠ .completed ∧
    compilations s2.log = compilations s.log ++ expectedCompilations [f] ∧
    (bytecodeReads s2.log = bytecodeReads s.log ∨
      ∃ binDir, bytecodeReads s2.log = bytecodeReads s.log ++
        [(binDir, filepathJoin binDir (trimSuffix f (filepathExt f) ++ ".bin"))]) := by
  unfold processArtifact at h
  simp only [setUint256, getUint256, writeOutput] at h
  split at h
  · next x1 s1 hc =>
    obtain ⟨rfl, hsol, r, hlog⟩ := compileContract_stop env f s s1 x1 hc
    simp only [Step.stop.injEq] at h
    obtain ⟨rfl, rfl⟩ := h
    simp [hlog, compilations, bytecodeReads, expectedCompilations, hsol]
  · next s1 hc =>
    obtain ⟨hc1, _⟩ := compileContract_next env f s s1 hc
    have hcomp : compilations s1.log = compilations s.log ++ expectedCompilations [f] := by
      rw [hc1]
      by_cases hsol : filepathExt f = ".sol" <;> simp [hsol, compilations, expectedCompilations]
    have hreads : bytecodeReads s1.log = bytecodeReads s.log := by
      rw [hc1]
      by_cases hsol : filepathExt f = ".sol" <;> simp [hsol, bytecodeReads]
    clear hc1 hc
    repeat' split at h
    all_goals
      simp only [Step.stop.injEq, reduceCtorEq] at h
    all_goals
      obtain ⟨rfl, rfl⟩ := h
      simp_all [St.record, compilations, bytecodeReads, resolvedDir]

/-- The compiler invocations, bytecode reads and deployments of a loop body
that ran to its end. -/
theorem processArtifact_next_projections (env : Env) (k : PrivateKey) (c v : Int) (f : String)
    (s s2 : St) (h : processArtifact env k c v f s = .next s2) :
    compilations s2.log = compilations s.log ++ expectedCompilations [f] ∧
    (∃ binDir, bytecodeReads s2.log = bytecodeReads s.log ++
      [(binDir, filepathJoin binDir (trimSuffix f (filepathExt f) ++ ".bin"))]) ∧
    ∃ data, deployments s2.log = deployments s.log ++ [data] := by
  obtain ⟨binDir, _, data, _, _, _, _, _, _, _, _, _, _, _, _, _, _, hlog, _⟩ :=
    processArtifact_next env k c v f s s2 h
  rw [hlog]
  by_cases hsol : filepathExt f = ".sol"
  · exact ⟨by simp [hsol, compilations, expectedCompilations],
      ⟨binDir, by simp [hsol, bytecodeReads, resolvedDir]⟩,
      ⟨data, by simp [hsol, deployments]⟩⟩
  · exact ⟨by simp [hsol, compilations, expectedCompilations],
      ⟨binDir, by simp [hsol, bytecodeReads, resolvedDir]⟩,
      ⟨data, by simp [hsol, deployments]⟩⟩

theorem expectedCompilations_cons (f : String) (files : List String) :
    expectedCompilations (f :: files) = expectedCompilations [f] ++ expectedCompilations files := by
  by_cases hsol : filepathExt f = ".sol" <;> simp [expectedCompilations, List.filter, hsol]

/-- The loop over the listing: `n` entries were started, in listing order;
the compiler ran exactly for those of them with extension `.sol`; the
bytecode file of each of the first `m` of them (all, or all but the last)
was read; when the loop runs to its end every entry was started, read and
deployed. -/
theorem deployAll_projections (env : Env) (k : PrivateKey) (c v : Int) (files : List String) :
    ∀ (s s2 : St) (x : Exit), deployAll env k c v files s = (x, s2) →
      ∃ n m reads, n ≤ files.length ∧ m ≤ n ∧ n ≤ m + 1 ∧
        compilations s2.log = compilations s.log ++ expectedCompilations (files.take n) ∧
        bytecodeReads s2.log = bytecodeReads s.log ++ reads ∧
        List.Forall₂ IsBytecodeRead (files.take m) reads ∧
        (x = .completed → n = files.length ∧ m = files.length ∧
          (deployments s2.log).length = (deployments s.log).length + files.length) := by
  induction files with
  | nil =>
    intro s s2 x h
    simp only [deployAll, Prod.mk.injEq] at h
    obtain ⟨rfl, rfl⟩ := h
    exact ⟨0, 0, [], by simp [expectedCompilations]⟩
  | cons f files ih =>
    intro s s2 x h
    unfold deployAll at h
    split at h
    · next x1 s1 hp =>
      simp only [Prod.mk.injEq] at h
      obtain ⟨rfl, rfl⟩ := h
      obtain ⟨hx, hcomp, hreads⟩ := processArtifact_stop env k c v f s s1 x1 hp
      rcases hreads with hreads | ⟨binDir, hreads⟩
      · exact ⟨1, 0, [], by simp, by simp, by simp, by simpa using hcomp, by simpa using hreads,
          by simp, fun hc => absurd hc hx⟩
      · exact ⟨1, 1, [_], by simp, by simp, by simp, by simpa using hcomp, hreads,
          by simp [IsBytecodeRead], fun hc => absurd hc hx⟩
    · next s1 hp =>
      obtain ⟨hcomp, ⟨binDir, hreads⟩, ⟨data, hdep⟩⟩ :=
        processArtifact_next_projections env k c v f s s1 hp
      obtain ⟨n, m, reads, hn, hm, hnm, hc2, hr2, hf2, hdone⟩ := ih s1 s2 x h
      refine ⟨n + 1, m + 1,
        (binDir, filepathJoin binDir (trimSuffix f (filepathExt f) ++ ".bin")) :: reads,
        by simpa using hn, by omega, by omega, ?_, ?_, ?_, ?_⟩
      · rw [hc2, hcomp, List.take_succ_cons, expectedCompilations_cons f (List.take n files),
          List.append_assoc]
      · rw [hr2, hreads, List.append_assoc]
        rfl
      · rw [List.take_succ_cons]
        exact List.Forall₂.cons (by simp [IsBytecodeRead]) hf2
      · intro hx
        obtain ⟨h1, h2, h3⟩ := hdone hx
        refine ⟨by simp [h1], by simp [h2], ?_⟩
        rw [h3, hdep]
        simp
        omega

/-- Either the run reaches the loop over the listing, from the log of its
three first interactions, or it ends by `log.Fatal` before, with no compiler
invocation, file read or deployment. -/
theorem main_cases (env : Env) :
    (∃ k c v files,
      env.hexToECDSA (env.trimSpace (getenv env "PRIVATE_KEY")) = .ok k ∧
      setString10 (getenv env "CHAIN_ID") = some c ∧
      setString10 (getenv env "UINT256_VALUE") = some v ∧
      env.readDir "./contracts" = .ok files ∧
      main env = deployAll env k c v files
        ⟨[.readDir "./contracts" (.ok files), .dial (getenv env "RPC_PROVIDER") (.ok ()),
          .godotenvLoad (.ok ())], none⟩) ∨
    ((main env).1 = .fatal ∧ compilations (main env).2.log = [] ∧
      bytecodeReads (main env).2.log = [] ∧ deployments (main env).2.log = []) := by
  unfold main
  simp only []
  repeat' split
  all_goals first
    | (right
       simp [St.record, compilations, bytecodeReads, deployments]
       done)
    | (left
       refine ⟨_, _, _, _, ‹_›, ‹_›, ‹_›, ‹_›, ?_⟩
       simp_all [St.record])

/-- C9: in every run over a listing `files`, some number `n` of entries
were started, in listing order: the compiler was invoked exactly for the
started entries whose extension is `.sol` (with the fixed flags, on
`contracts/<entry>`), in that order; the bytecode file
`<binDir>/<name without extension>.bin` was read for each of the first `m`
started entries, whatever their extension, where `m` is `n` or `n - 1` (the
last started entry may have failed before its read); and when the run
completes every entry was started and read and there are as many
deployment submissions as entries. -/
theorem compile_only_sol_pipeline_every_entry (env : Env) (files : List String)
    (hdir : env.readDir "./contracts" = .ok files) :
    ∃ n m, n ≤ files.length ∧ m ≤ n ∧ n ≤ m + 1 ∧
      compilations (main env).2.log = expectedCompilations (files.take n) ∧
      List.Forall₂ IsBytecodeRead (files.take m) (bytecodeReads (main env).2.log) ∧
      ((main env).1 = .completed → n = files.length ∧ m = files.length ∧
        (deployments (main env).2.log).length = files.length) := by
  rcases main_cases env with ⟨k, c, v, files2, _, _, _, hdir2, hmain⟩ | ⟨hx, h1, h2, _⟩
  · rw [hdir] at hdir2
    simp only [Except.ok.injEq] at hdir2
    subst hdir2
    generalize hres : main env = res at *
    obtain ⟨x, s2⟩ := res
    obtain ⟨n, m, reads, hn, hm, hnm, hc2, hr2, hf2, hdone⟩ :=
      deployAll_projections env k c v files _ s2 x hmain.symm
    refine ⟨n, m, hn, hm, hnm, ?_, ?_, ?_⟩
    · simpa [compilations] using hc2
    · have : bytecodeReads s2.log = reads := by simpa [bytecodeReads] using hr2
      rw [this]
      exact hf2
    · intro hx
      obtain ⟨h1, h2, h3⟩ := hdone hx
      exact ⟨h1, h2, by simpa [deployments] using h3⟩
  · refine ⟨0, 0, by simp, by simp, by simp, ?_, ?_, ?_⟩
    · simpa [expectedCompilations] using h1
    · rw [h2]
      simp
    · intro hc
      rw [hx] at hc
      cases hc

/-- A loop over a non-empty listing that ran to its end ended with the body
of the last entry. -/
theorem deployAll_last (env : Env) (k : PrivateKey) (c v : Int) (files : List String)
    (hne : files ≠ []) :
    ∀ (s s2 : St), deployAll env k c v files s = (.completed, s2) →
      ∃ s0, processArtifact env k c v (files.getLast hne) s0 = .next s2 := by
  induction files with
  | nil => exact absurd rfl hne
  | cons f files ih =>
    intro s s2 h
    unfold deployAll at h
    split at h
    · next x1 s1 hp =>
      simp only [Prod.mk.injEq] at h
      obtain ⟨rfl, rfl⟩ := h
      exact absurd rfl (processArtifact_stop env k c v f s s1 .completed hp).1
    · next s1 hp =>
      by_cases hnil : files = []
      · subst hnil
        simp only [deployAll, Prod.mk.injEq, true_and] at h
        subst h
        exact ⟨s, hp⟩
      · obtain ⟨s0, h0⟩ := ih hnil s1 s2 h
        exact ⟨s0, by rw [List.getLast_cons hnil]; exact h0⟩

/-- C8: when a run over a non-empty listing completes, the output file holds
exactly the encoded record of the last entry of the listing: the value
decoded from the newest `getUint256` call, the address of the authority, and
the address returned by the newest deployment, which is the deployment of
the bytecode file of the last entry; the file was truncated at its creation,
so nothing of earlier records remains. -/
theorem last_record_survives (env : Env) (files : List String)
    (hdir : env.readDir "./contracts" = .ok files) (hne : files ≠ [])
    (hdone : (main env).1 = .completed) :
    ∃ binDir bytecodeStr constructorBytes abiPath abiBytes contractABI gasPrice sender estimate
        auth address tx receipt value tx2 receipt2 r currentValue jsonData earlier,
      (main env).2.log =
        .write jsonData (.ok ()) ::
        .create "output.json" (.ok ()) ::
        .call address contractABI "getUint256" r ::
        .waitMined tx2 (.mined receipt2) ::
        .transact address contractABI auth "setUint256" value (.ok tx2) ::
        .waitMined tx (.mined receipt) ::
        .deployContract auth contractABI constructorBytes (.ok (address, tx)) ::
        .estimateGas sender constructorBytes (.ok estimate) ::
        .suggestGasPrice (.ok gasPrice) ::
        .readFile abiPath (.ok abiBytes) ::
        .readFile (filepathJoin binDir
          (trimSuffix (files.getLast hne) (filepathExt (files.getLast hne)) ++ ".bin"))
          (.ok bytecodeStr) ::
        .abs "./compiled-contracts" (.ok binDir) :: earlier ∧
      getUint256Result r = .ok currentValue ∧
      env.marshalIndent
        [("getUint256Value", bigIntString currentValue),
         ("deployerAddress", env.addressHex auth.From),
         ("contractAddress", env.addressHex address)] = .ok jsonData ∧
      (main env).2.output = some jsonData := by
  rcases main_cases env with ⟨k, c, v, files2, _, _, _, hdir2, hmain⟩ | ⟨hx, _⟩
  · rw [hdir] at hdir2
    simp only [Except.ok.injEq] at hdir2
    subst hdir2
    generalize hres : main env = res at *
    obtain ⟨x, s2⟩ := res
    simp only at hdone
    subst hdone
    obtain ⟨s0, h0⟩ := deployAll_last env k c v files hne _ s2 hmain.symm
    obtain ⟨binDir, bytecodeStr, constructorBytes, abiBytes, contractABI, gasPrice, estimate,
      auth0, auth, address, tx, receipt, tx2, receipt2, r, currentValue, jsonData, hlog, hout,
      hjson, hread, _⟩ := processArtifact_next env k c v _ s0 s2 h0
    exact ⟨binDir, bytecodeStr, constructorBytes, _, abiBytes, contractABI, gasPrice, _, estimate,
      auth, address, tx, receipt, v, tx2, receipt2, r, currentValue, jsonData, _, hlog, hread,
      hjson, hout⟩
  · rw [hx] at hdone
    cases hdone

/-- What a trivial get/set contract holds right after a confirmed
`setUint256` submission. -/
theorem storedValue_after_set (contract : Address) (abi : ABI) (opts : TransactOpts)
    (value : Int) (tx : Transaction) (receipt : Receipt) (h : Log)
    (hst : receipt.Status = ReceiptStatusSuccessful) :
    storedValue contract (.waitMined tx (.mined receipt) ::
      .transact contract abi opts "setUint256" value (.ok tx) :: h) = value % 2 ^ 256 := by
  simp [storedValue, storedValueAux, minedOk, hst]

/-- C2: in a completed run over a single artifact, against a chain whose
contract is a trivial get/set contract, with a configured value `V` in the
`uint256` range, the output file holds exactly the encoding of the three-key
record: `getUint256Value` is the decimal string of `V`, `deployerAddress` the
hex form of the address of the authority built from the configured key and
chain identifier, `contractAddress` the hex form of the address returned by
the deployment submission. -/
theorem single_artifact_record (env : Env) (file : String) (V : Int)
    (hdir : env.readDir "./contracts" = .ok [file])
    (hval : setString10 (getenv env "UINT256_VALUE") = some V)
    (hlo : 0 ≤ V) (hhi : V < 2 ^ 256)
    (hchain : TrivialGetSet env)
    (hdone : (main env).1 = .completed) :
    ∃ key chain auth0 opts abi data contract tx receipt tx2 receipt2 jsonData earlier,
      env.hexToECDSA (env.trimSpace (getenv env "PRIVATE_KEY")) = .ok key ∧
      setString10 (getenv env "CHAIN_ID") = some chain ∧
      env.newKeyedTransactorWithChainID key chain = .ok auth0 ∧
      opts.From = auth0.From ∧
      (main env).2.log =
        .write jsonData (.ok ()) ::
        .create "output.json" (.ok ()) ::
        .call contract abi "getUint256" (.ok [.bigInt V]) ::
        .waitMined tx2 (.mined receipt2) ::
        .transact contract abi opts "setUint256" V (.ok tx2) ::
        .waitMined tx (.mined receipt) ::
        .deployContract opts abi data (.ok (contract, tx)) :: earlier ∧
      env.marshalIndent
        [("getUint256Value", bigIntString V),
         ("deployerAddress", env.addressHex auth0.From),
         ("contractAddress", env.addressHex contract)] = .ok jsonData ∧
      (main env).2.output = some jsonData := by
  rcases main_cases env with ⟨k, c, v, files2, hk, hc, hv, hdir2, hmain⟩ | ⟨hx, _⟩
  · rw [hdir] at hdir2
    simp only [Except.ok.injEq] at hdir2
    subst hdir2
    rw [hval] at hv
    simp only [Option.some.injEq] at hv
    subst hv
    generalize hres : main env = res at *
    obtain ⟨x, s2⟩ := res
    simp only at hdone
    subst hdone
    obtain ⟨s0, h0⟩ := deployAll_last env k c V [file] (by simp) _ s2 hmain.symm
    obtain ⟨binDir, bytecodeStr, constructorBytes, abiBytes, contractABI, gasPrice, estimate,
      auth0, auth, address, tx, receipt, tx2, receipt2, r, currentValue, jsonData, hlog, hout,
      hjson, hread, hcall, _, hst2, hauth0, hauth⟩ := processArtifact_next env k c V _ s0 s2 h0
    rw [hchain, storedValue_after_set _ _ _ _ _ _ _ hst2, Int.emod_eq_of_lt hlo hhi] at hcall
    subst hcall
    simp only [getUint256Result, Except.ok.injEq] at hread
    subst hread
    refine ⟨k, c, auth0, auth, contractABI, constructorBytes, address, tx, receipt, tx2, receipt2,
      jsonData, _, hk, hc, hauth0, by rw [hauth], hlog, ?_, hout⟩
    rw [hauth] at hjson
    exact hjson
  · rw [hx] at hdone
    cases hdone

/-! ## The statements at concrete worlds -/

theorem failed_receipt_halts_witness :
    ((main (scenarioEnv failedWriteScenario)).2.log =
        [] ++ .waitMined ⟨11⟩ (.mined ⟨0⟩) :: (main (scenarioEnv failedWriteScenario)).2.log.tail ∧
      (0 : Nat) ≠ ReceiptStatusSuccessful ∧
      (([] : Log) = [] ∧ (main (scenarioEnv failedWriteScenario)).1 = .fatal)) ∧
    ((main (scenarioEnv failedDeploymentScenario)).2.log =
        [] ++ .waitMined ⟨9⟩ (.mined ⟨0⟩) ::
          (main (scenarioEnv failedDeploymentScenario)).2.log.tail ∧
      (([] : Log) = [] ∧ (main (scenarioEnv failedDeploymentScenario)).1 = .fatal)) :=
  by
  have h1 : (main (scenarioEnv failedWriteScenario)).2.log =
      [] ++ .waitMined ⟨11⟩ (.mined ⟨0⟩) ::
        (main (scenarioEnv failedWriteScenario)).2.log.tail := by decide
  have h2 : (main (scenarioEnv failedDeploymentScenario)).2.log =
      [] ++ .waitMined ⟨9⟩ (.mined ⟨0⟩) ::
        (main (scenarioEnv failedDeploymentScenario)).2.log.tail := by decide
  have h0 : (0 : Nat) ≠ ReceiptStatusSuccessful := by decide
  exact ⟨⟨h1, h0, failed_receipt_halts _ _ _ _ _ h1 h0⟩, ⟨h2, failed_receipt_halts _ _ _ _ _ h2 h0⟩⟩

theorem rejected_deployment_halts_witness :
    (main (scenarioEnv rejectedScenario)).2.log =
        [] ++ .deployContract
          { From := ⟨1001⟩, Signer := 0, GasPrice := some 1007, GasLimit := 121001 } ⟨0⟩ [96]
          (.error "nonce too low") :: (main (scenarioEnv rejectedScenario)).2.log.tail ∧
      (([] : Log) = [] ∧ (main (scenarioEnv rejectedScenario)).1 = .fatal) :=
  by
  have h : (main (scenarioEnv rejectedScenario)).2.log =
      [] ++ .deployContract
        { From := ⟨1001⟩, Signer := 0, GasPrice := some 1007, GasLimit := 121001 } ⟨0⟩ [96]
        (.error "nonce too low") :: (main (scenarioEnv rejectedScenario)).2.log.tail := by decide
  exact ⟨h, rejected_deployment_halts _ _ _ _ _ _ _ h⟩

theorem getUint256_contract_witness :
    getUint256Result (.ok []) = .error .emptyResult ∧
    (main (scenarioEnv emptyReadScenario)).2.log =
        [] ++ .call ⟨2009⟩ ⟨0⟩ "getUint256" (.ok []) ::
          (main (scenarioEnv emptyReadScenario)).2.log.tail ∧
      (([] : Log) = [] ∧ (main (scenarioEnv emptyReadScenario)).1 = .fatal) ∧
      (main (scenarioEnv emptyReadScenario)).2.output = none :=
  by
  have h : (main (scenarioEnv emptyReadScenario)).2.log =
      [] ++ .call ⟨2009⟩ ⟨0⟩ "getUint256" (.ok []) ::
        (main (scenarioEnv emptyReadScenario)).2.log.tail := by decide
  have hr : getUint256Result (.ok []) = .error .emptyResult := by decide
  exact ⟨hr, h, (getUint256_contract (scenarioEnv emptyReadScenario)).2.2.2 _ _ _ _ _ _ _ h hr,
    by decide⟩

/-- C3 as stated fails: in the run where every stage succeeds, the
authority passed to the setUint256 submission carries the gas limit of the
deployment, the deployment estimate 21001 plus 100000, and not the value 0
that would leave the limit to the estimation of the bound contract. -/
theorem write_call_carries_margin :
    (main (scenarioEnv happyScenario)).2.log =
      (main (scenarioEnv happyScenario)).2.log.take 4 ++
        .transact ⟨2009⟩ ⟨0⟩
          { From := ⟨1001⟩, Signer := 0, GasPrice := some 1007, GasLimit := 21001 + 100000 }
          "setUint256" 42 (.ok ⟨11⟩) ::
        .waitMined ⟨9⟩ (.mined ⟨1⟩) ::
        .deployContract
          { From := ⟨1001⟩, Signer := 0, GasPrice := some 1007, GasLimit := 21001 + 100000 }
          ⟨0⟩ [96] (.ok (⟨2009⟩, ⟨9⟩)) ::
        .estimateGas ⟨1001⟩ [96] (.ok 21001) ::
        (main (scenarioEnv happyScenario)).2.log.drop 8 ∧
    21001 + 100000 ≠ 0 := by
  constructor
  · rfl
  · decide

theorem write_call_keeps_deployment_gas_witness :
    (main (scenarioEnv happyScenario)).2.log =
      (main (scenarioEnv happyScenario)).2.log.take 4 ++
        .transact ⟨2009⟩ ⟨0⟩
          { From := ⟨1001⟩, Signer := 0, GasPrice := some 1007, GasLimit := 121001 }
          "setUint256" 42 (.ok ⟨11⟩) ::
        (main (scenarioEnv happyScenario)).2.log.drop 5 ∧
    ∃ tx receipt data sender estimate gasPrice h1,
      (main (scenarioEnv happyScenario)).2.log.drop 5 = .waitMined tx (.mined receipt) ::
        .deployContract
          { From := ⟨1001⟩, Signer := 0, GasPrice := some 1007, GasLimit := 121001 } ⟨0⟩ data
          (.ok (⟨2009⟩, tx)) ::
        .estimateGas sender data (.ok estimate) :: .suggestGasPrice (.ok gasPrice) :: h1 ∧
      (some 1007 : Option Int) = some gasPrice ∧
      121001 = (estimate + 100000) % 2 ^ 64 :=
  by
  have h : (main (scenarioEnv happyScenario)).2.log =
      (main (scenarioEnv happyScenario)).2.log.take 4 ++
        .transact ⟨2009⟩ ⟨0⟩
          { From := ⟨1001⟩, Signer := 0, GasPrice := some 1007, GasLimit := 121001 }
          "setUint256" 42 (.ok ⟨11⟩) ::
        (main (scenarioEnv happyScenario)).2.log.drop 5 := by rfl
  exact ⟨h, write_call_keeps_deployment_gas _ _ _ _ _ _ _ _ _ h⟩

theorem deployment_gas_parameters_witness :
    (main (scenarioEnv twoEntriesScenario)).2.log =
      (main (scenarioEnv twoEntriesScenario)).2.log.take 6 ++
        .deployContract
          { From := ⟨1001⟩, Signer := 0, GasPrice := some 1019, GasLimit := 121001 } ⟨0⟩ [96]
          (.ok (⟨2021⟩, ⟨21⟩)) ::
        (main (scenarioEnv twoEntriesScenario)).2.log.drop 7 ∧
    ∃ sender estimate gasPrice abiPath abiBytes h1,
      (main (scenarioEnv twoEntriesScenario)).2.log.drop 7 =
        .estimateGas sender [96] (.ok estimate) :: .suggestGasPrice (.ok gasPrice) ::
        .readFile abiPath (.ok abiBytes) :: h1 ∧
      (scenarioEnv twoEntriesScenario).suggestGasPrice (.readFile abiPath (.ok abiBytes) :: h1) =
        .ok gasPrice ∧
      (scenarioEnv twoEntriesScenario).estimateGas
        (.suggestGasPrice (.ok gasPrice) :: .readFile abiPath (.ok abiBytes) :: h1)
        sender [96] = .ok estimate ∧
      (some 1019 : Option Int) = some gasPrice ∧
      121001 = (estimate + 100000) % 2 ^ 64 ∧
      (estimate ≤ 2 ^ 64 - 100001 → 121001 = estimate + 100000) :=
  by
  have h : (main (scenarioEnv twoEntriesScenario)).2.log =
      (main (scenarioEnv twoEntriesScenario)).2.log.take 6 ++
        .deployContract
          { From := ⟨1001⟩, Signer := 0, GasPrice := some 1019, GasLimit := 121001 } ⟨0⟩ [96]
          (.ok (⟨2021⟩, ⟨21⟩)) ::
        (main (scenarioEnv twoEntriesScenario)).2.log.drop 7 := by rfl
  exact ⟨h, deployment_gas_parameters _ _ _ _ _ _ _ h⟩

set_option maxRecDepth 100000 in
theorem single_artifact_record_witness :
    (scenarioEnv happyScenario).readDir "./contracts" = .ok ["Storage.sol"] ∧
    setString10 (getenv (scenarioEnv happyScenario) "UINT256_VALUE") = some 42 ∧
    TrivialGetSet (scenarioEnv happyScenario) ∧
    (main (scenarioEnv happyScenario)).1 = .completed ∧
    bigIntString 42 = "42" ∧
    (main (scenarioEnv happyScenario)).2.output =
      some (asciiBytes "getUint256Value=42;deployerAddress=0x1001;contractAddress=0x2009;") ∧
    ∃ key chain auth0 opts abi data contract tx receipt tx2 receipt2 jsonData earlier,
      (scenarioEnv happyScenario).hexToECDSA
        ((scenarioEnv happyScenario).trimSpace (getenv (scenarioEnv happyScenario) "PRIVATE_KEY")) =
          .ok key ∧
      setString10 (getenv (scenarioEnv happyScenario) "CHAIN_ID") = some chain ∧
      (scenarioEnv happyScenario).newKeyedTransactorWithChainID key chain = .ok auth0 ∧
      opts.From = auth0.From ∧
      (main (scenarioEnv happyScenario)).2.log =
        .write jsonData (.ok ()) ::
        .create "output.json" (.ok ()) ::
        .call contract abi "getUint256" (.ok [.bigInt 42]) ::
        .waitMined tx2 (.mined receipt2) ::
        .transact contract abi opts "setUint256" 42 (.ok tx2) ::
        .waitMined tx (.mined receipt) ::
        .deployContract opts abi data (.ok (contract, tx)) :: earlier ∧
      (scenarioEnv happyScenario).marshalIndent
        [("getUint256Value", bigIntString 42),
         ("deployerAddress", (scenarioEnv happyScenario).addressHex auth0.From),
         ("contractAddress", (scenarioEnv happyScenario).addressHex contract)] = .ok jsonData ∧
      (main (scenarioEnv happyScenario)).2.output = some jsonData := by
  have hdir : (scenarioEnv happyScenario).readDir "./contracts" = .ok ["Storage.sol"] := rfl
  have hval : setString10 (getenv (scenarioEnv happyScenario) "UINT256_VALUE") = some 42 := by
    decide
  have hchain : TrivialGetSet (scenarioEnv happyScenario) := fun _ _ _ => rfl
  have hdone : (main (scenarioEnv happyScenario)).1 = .completed := by decide
  exact ⟨hdir, hval, hchain, hdone, by decide, by rfl,
    single_artifact_record (scenarioEnv happyScenario) "Storage.sol" 42 hdir hval (by decide)
      (by norm_num) hchain hdone⟩

set_option maxRecDepth 100000 in
theorem last_record_survives_witness :
    (scenarioEnv twoEntriesScenario).readDir "./contracts" = .ok ["Storage.sol", "notes.txt"] ∧
    (main (scenarioEnv twoEntriesScenario)).1 = .completed ∧
    (main (scenarioEnv twoEntriesScenario)).2.output =
      some (asciiBytes "getUint256Value=42;deployerAddress=0x1001;contractAddress=0x2021;") ∧
    ∃ binDir bytecodeStr constructorBytes abiPath abiBytes contractABI gasPrice sender estimate
        auth address tx receipt value tx2 receipt2 r currentValue jsonData earlier,
      (main (scenarioEnv twoEntriesScenario)).2.log =
        .write jsonData (.ok ()) ::
        .create "output.json" (.ok ()) ::
        .call address contractABI "getUint256" r ::
        .waitMined tx2 (.mined receipt2) ::
        .transact address contractABI auth "setUint256" value (.ok tx2) ::
        .waitMined tx (.mined receipt) ::
        .deployContract auth contractABI constructorBytes (.ok (address, tx)) ::
        .estimateGas sender constructorBytes (.ok estimate) ::
        .suggestGasPrice (.ok gasPrice) ::
        .readFile abiPath (.ok abiBytes) ::
        .readFile (filepathJoin binDir (trimSuffix "notes.txt" (filepathExt "notes.txt") ++ ".bin"))
          (.ok bytecodeStr) ::
        .abs "./compiled-contracts" (.ok binDir) :: earlier ∧
      getUint256Result r = .ok currentValue ∧
      (scenarioEnv twoEntriesScenario).marshalIndent
        [("getUint256Value", bigIntString currentValue),
         ("deployerAddress", (scenarioEnv twoEntriesScenario).addressHex auth.From),
         ("contractAddress", (scenarioEnv twoEntriesScenario).addressHex address)] = .ok jsonData ∧
      (main (scenarioEnv twoEntriesScenario)).2.output = some jsonData := by
  have hdir : (scenarioEnv twoEntriesScenario).readDir "./contracts" =
      .ok ["Storage.sol", "notes.txt"] := rfl
  have hdone : (main (scenarioEnv twoEntriesScenario)).1 = .completed := by decide
  exact ⟨hdir, hdone, by rfl,
    last_record_survives (scenarioEnv twoEntriesScenario) ["Storage.sol", "notes.txt"] hdir
      (by simp) hdone⟩

theorem compile_only_sol_pipeline_every_entry_witness :
    (scenarioEnv twoEntriesScenario).readDir "./contracts" = .ok ["Storage.sol", "notes.txt"] ∧
    compilations (main (scenarioEnv twoEntriesScenario)).2.log =
      [solcArgs "contracts/Storage.sol"] ∧
    bytecodeReads (main (scenarioEnv twoEntriesScenario)).2.log =
      [("/work/compiled-contracts", "/work/compiled-contracts/Storage.bin"),
       ("/work/compiled-contracts", "/work/compiled-contracts/notes.bin")] ∧
    deployments (main (scenarioEnv twoEntriesScenario)).2.log = [[96], [96]] ∧
    ∃ n m, n ≤ ["Storage.sol", "notes.txt"].length ∧ m ≤ n ∧ n ≤ m + 1 ∧
      compilations (main (scenarioEnv twoEntriesScenario)).2.log =
        expectedCompilations (["Storage.sol", "notes.txt"].take n) ∧
      List.Forall₂ IsBytecodeRead (["Storage.sol", "notes.txt"].take m)
        (bytecodeReads (main (scenarioEnv twoEntriesScenario)).2.log) ∧
      ((main (scenarioEnv twoEntriesScenario)).1 = .completed →
        n = ["Storage.sol", "notes.txt"].length ∧ m = ["Storage.sol", "notes.txt"].length ∧
        (deployments (main (scenarioEnv twoEntriesScenario)).2.log).length =
          ["Storage.sol", "notes.txt"].length) := by
  have hdir : (scenarioEnv twoEntriesScenario).readDir "./contracts" =
      .ok ["Storage.sol", "notes.txt"] := rfl
  exact ⟨hdir, by rfl, by rfl, by rfl,
    compile_only_sol_pipeline_every_entry (scenarioEnv twoEntriesScenario)
      ["Storage.sol", "notes.txt"] hdir⟩

theorem constructor_payload_witness :
    (main (scenarioEnv shortBytecodeScenario)).2.log =
        [] ++ .readFile "/work/compiled-contracts/Storage.bin" (.ok [54, 48]) ::
          .abs "./compiled-contracts" (.ok "/work/compiled-contracts") ::
          (main (scenarioEnv shortBytecodeScenario)).2.log.drop 2 ∧
      ([54, 48] : Bytes).length < 68 ∧
      (([] : Log) = [] ∧ (main (scenarioEnv shortBytecodeScenario)).1 = .panicked) ∧
    ((main (scenarioEnv boundaryBytecodeScenario)).2.log =
        (main (scenarioEnv boundaryBytecodeScenario)).2.log.take 10 ++
          .readFile "/work/compiled-contracts/Storage.bin" (.ok (List.replicate 68 48)) ::
          .abs "./compiled-contracts" (.ok "/work/compiled-contracts") ::
          (main (scenarioEnv boundaryBytecodeScenario)).2.log.drop 12 ∧
      68 ≤ (List.replicate 68 (48 : Byte)).length ∧
      hexDecodeString ((List.replicate 68 (48 : Byte)).take
        ((List.replicate 68 (48 : Byte)).length - 68)) = .ok [] ∧
      (main (scenarioEnv boundaryBytecodeScenario)).1 = .completed ∧
      deployments (main (scenarioEnv boundaryBytecodeScenario)).2.log = [[]] ∧
      ∃ later2 abiPath r2,
        (main (scenarioEnv boundaryBytecodeScenario)).2.log.take 10 =
          later2 ++ [.readFile abiPath r2] ∧
        ∀ (later3 : Log) (sender : Address) (data : Bytes) (r3 : Except String Nat)
          (r4 : Except String Int),
          later2 = later3 ++ [.estimateGas sender data r3, .suggestGasPrice r4] →
          data = []) ∧
    hexDecodeString (sampleBytecode.take (sampleBytecode.length - 68)) = .ok [96] ∧
    ∃ sender estimate h1, (main (scenarioEnv happyScenario)).2.log.drop 7 =
      .estimateGas sender [96] (.ok estimate) :: h1 := by
  have h : (main (scenarioEnv shortBytecodeScenario)).2.log =
      [] ++ .readFile "/work/compiled-contracts/Storage.bin" (.ok [54, 48]) ::
        .abs "./compiled-contracts" (.ok "/work/compiled-contracts") ::
        (main (scenarioEnv shortBytecodeScenario)).2.log.drop 2 := by decide
  have hlen : ([54, 48] : Bytes).length < 68 := by decide
  have hb : (main (scenarioEnv boundaryBytecodeScenario)).2.log =
      (main (scenarioEnv boundaryBytecodeScenario)).2.log.take 10 ++
        .readFile "/work/compiled-contracts/Storage.bin" (.ok (List.replicate 68 48)) ::
        .abs "./compiled-contracts" (.ok "/work/compiled-contracts") ::
        (main (scenarioEnv boundaryBytecodeScenario)).2.log.drop 12 := by rfl
  have hblen : 68 ≤ (List.replicate 68 (48 : Byte)).length := by decide
  have hbdec : hexDecodeString ((List.replicate 68 (48 : Byte)).take
      ((List.replicate 68 (48 : Byte)).length - 68)) = .ok [] := by decide
  have h2 : (main (scenarioEnv happyScenario)).2.log =
      (main (scenarioEnv happyScenario)).2.log.take 6 ++
        .deployContract
          { From := ⟨1001⟩, Signer := 0, GasPrice := some 1007, GasLimit := 121001 } ⟨0⟩ [96]
          (.ok (⟨2009⟩, ⟨9⟩)) ::
        (main (scenarioEnv happyScenario)).2.log.drop 7 := by rfl
  exact ⟨h, hlen,
    ((constructor_payload (scenarioEnv shortBytecodeScenario)).1 _ _ _ _ _ _ h).1 hlen,
    ⟨hb, hblen, hbdec, by decide, by rfl,
      (((constructor_payload (scenarioEnv boundaryBytecodeScenario)).1 _ _ _ _ _ _ hb).2
        hblen).2.2.2 [] hbdec⟩,
    by rfl,
    (constructor_payload (scenarioEnv happyScenario)).2.2 _ _ _ _ _ _ h2⟩

end Deployer
